import Mathlib

set_option autoImplicit false

/-! Shallow embedding of the Entry/Project subsystem found under
    src/xamin/entry (entry.py, text_entry.py, binary_entry.py, csv_entry.py,
    yaml_entry.py, project.py), written to settle the claims of the
    specification.

    External library behavior (UTF-8 decoding, yaml.load, csv.Sniffer) is
    passed in as explicit function parameters, so theorems about the code
    hold for every behavior of those libraries.  Machinery the code
    manipulates directly (stream positions, csv.reader iteration, dict
    insertion order, os.path.commonpath) is modelled concretely. -/

/-- Hint (entry.py, class Hint): a capped byte sample of a file.  The source
    dataclass stores `bytes`; its `utf_8` property is `bytes.decode("utf-8")`
    or None on decode failure, which this embedding models by applying an
    explicit `decode` parameter to the stored bytes. -/
structure Hint where
  bytes : List Nat
deriving DecidableEq

/-- A file as seen by `Entry.get_hint`: missing, unreadable (open raises), or
    readable with some byte content. -/
inductive HFile where
  | absent
  | unreadable
  | file (bytes : List Nat)

/-- The filesystem as seen by hint extraction and type sniffing. -/
def HFS : Type := String → HFile

/-- Entry.get_hint (entry.py lines 138-161): returns a hint holding the first
    hint_size bytes of the file, or none when the path is None or when the
    open or the read raises (the source catches every exception with a bare
    except and returns None). -/
def getHint (hintSize : Nat) (fs : HFS) (path : Option String) : Option Hint :=
  match path with
  | none => none
  | some p =>
    match fs p with
    | .file bs => some ⟨bs.take hintSize⟩
    | _ => none

/-- Python truthiness of an optional string: None and the empty string are
    falsy, every other string is truthy. -/
def truthyOptStr : Option String → Bool
  | none => false
  | some s => !s.isEmpty

/-- TextEntry.is_type (text_entry.py lines 20-35), with the hint already
    resolved (the source first substitutes get_hint(path) for a missing
    hint): the source returns True if hint and hint.utf_8 else False, so it
    is true iff the hint exists and its utf-8 decoding is truthy. -/
def textEntryIsType (decode : List Nat → Option String) (hint : Option Hint) : Bool :=
  match hint with
  | none => false
  | some h => truthyOptStr (decode h.bytes)

/-- BinaryEntry.is_type (binary_entry.py lines 22-38), hint resolved as
    above: the source returns False if hint and hint.utf_8 else True, so a
    missing hint yields True. -/
def binaryEntryIsType (decode : List Nat → Option String) (hint : Option Hint) : Bool :=
  match hint with
  | none => true
  | some h => !truthyOptStr (decode h.bytes)

/-- Models stdlib mimetypes.guess_type for the extensions the code consults
    (Entry.guess_mimetype, entry.py lines 235-239). -/
def guessMimetype (path : String) : Option String :=
  if path.endsWith ".py" then some "text/x-python"
  else if path.endsWith ".html" || path.endsWith ".htm" then some "text/html"
  else if path.endsWith ".xml" then some "application/xml"
  else none

/-- PythonEntry.is_type (text_entry.py lines 48-56): a TextEntry whose
    guessed mimetype is text/x-python. -/
def pythonEntryIsType (decode : List Nat → Option String) (path : String)
    (hint : Option Hint) : Bool :=
  textEntryIsType decode hint && (guessMimetype path == some "text/x-python")

/-- HtmlEntry.is_type (text_entry.py lines 62-70): a TextEntry whose guessed
    mimetype is text/html. -/
def htmlEntryIsType (decode : List Nat → Option String) (path : String)
    (hint : Option Hint) : Bool :=
  textEntryIsType decode hint && (guessMimetype path == some "text/html")

/-- XmlEntry.is_type (text_entry.py lines 76-84): a TextEntry whose guessed
    mimetype is application/xml. -/
def xmlEntryIsType (decode : List Nat → Option String) (path : String)
    (hint : Option Hint) : Bool :=
  textEntryIsType decode hint && (guessMimetype path == some "application/xml")

/-- CsvEntry.get_dialect (csv_entry.py lines 42-51) followed by is_type
    (lines 30-40): sniff the utf-8 text of the hint with csv.Sniffer (passed
    in as `sniff`, returning the sniffed delimiter or an error for a raised
    exception).  is_type catches every exception and returns False; when the
    hint or its decoding is None, get_dialect raises NotImplementedError, so
    is_type is False. -/
def csvEntryIsType (decode : List Nat → Option String)
    (sniff : String → Except Unit Char) (hint : Option Hint) : Bool :=
  match hint with
  | none => false
  | some h =>
    match decode h.bytes with
    | none => false
    | some u =>
      match sniff u with
      | .ok _ => true
      | .error _ => false

/-- The classification of a parsed yaml.load result that YamlEntry.is_type
    inspects (yaml_entry.py lines 64-71). -/
inductive PyYamlKind where
  | mapping
  | listSeq
  | tupleSeq
  | entryObj
  | other
deriving DecidableEq

/-- Python str.splitlines restricted to newline separators: no trailing
    empty line for text ending in a newline, and no lines at all for the
    empty string. -/
def pySplitlines (s : String) : List String :=
  if s.isEmpty then []
  else
    let parts := s.splitOn "\n"
    if s.endsWith "\n" then parts.dropLast else parts

/-- YamlEntry.is_type (yaml_entry.py lines 22-71): decode the hint, drop its
    last (possibly truncated) line, parse with yaml.load (passed in as
    `parse`, exceptions being the error case) and accept mappings, lists,
    tuples and Entry objects. -/
def yamlEntryIsType (decode : List Nat → Option String)
    (parse : String → Except Unit PyYamlKind) (hint : Option Hint) : Bool :=
  match hint with
  | none => false
  | some h =>
    match decode h.bytes with
    | none => false
    | some text =>
      let block := String.intercalate "\n" (pySplitlines text).dropLast
      match parse block with
      | .error _ => false
      | .ok k => k == .mapping || k == .listSeq || k == .tupleSeq || k == .entryObj

/-- Python re.sub of "#.*" with the empty string: drop everything from each
    number sign to its end of line. -/
def stripComments (s : String) : String :=
  String.intercalate "\n" ((s.splitOn "\n").map (fun l => l.takeWhile (fun c => c ≠ '#')))

/-- The regular expression check of Project.is_type: the text must start
    with !Project, a newline, optional whitespace and then meta: or
    entries: (project.py lines 146-151). -/
def matchesProjectHeader (s : String) : Bool :=
  if s.startsWith "!Project\n" then
    let rest := (s.drop 9).dropWhile (fun c => c.isWhitespace)
    rest.startsWith "meta:" || rest.startsWith "entries:"
  else false

/-- Project.is_type (project.py lines 134-153): decode the hint, strip
    comments, trim whitespace and test the !Project header. -/
def projectEntryIsType (decode : List Nat → Option String) (hint : Option Hint) : Bool :=
  match hint with
  | none => false
  | some h =>
    match decode h.bytes with
    | none => false
    | some text => matchesProjectHeader (stripComments text).trim

/-- One registered concrete Entry class as the type guesser sees it: its
    score (Entry.score, entry.py lines 241-250) and its is_type predicate
    over the path and the resolved hint.  The tag distinguishes classes. -/
structure EntryKind where
  tag : String
  score : Nat
  isType : String → Option Hint → Bool

/-- Stable insertion by score: a new element goes after existing elements of
    equal score, as in a stable ascending sort. -/
def insertByScore (k : EntryKind) : List EntryKind → List EntryKind
  | [] => [k]
  | x :: xs => if k.score < x.score then k :: x :: xs else x :: insertByScore k xs

/-- Entry.subclasses (entry.py lines 132-136): sorted(Entry._subclasses,
    key=score).  Python sorted is stable, so among equal scores the order of
    the input list (the unspecified iteration order of the subclass set) is
    preserved. -/
def sortByScore (l : List EntryKind) : List EntryKind :=
  l.foldl (fun acc k => insertByScore k acc) []

/-- The selection loop of Entry.guess_type (entry.py lines 215-233):
    traverse the score-sorted subclasses keeping the class that both matches
    and strictly beats the best score seen so far (initially 0). -/
def pickBest (path : String) (hint : Option Hint) :
    List EntryKind → Nat → Option EntryKind → Option EntryKind
  | [], _, best => best
  | c :: rest, hs, best =>
    if decide (hs < c.score) && c.isType path hint then
      pickBest path hint rest c.score (some c)
    else
      pickBest path hint rest hs best

/-- Entry.guess_type (entry.py lines 183-233).  The subclass registry is a
    Python set in the source; its unspecified iteration order is the
    `registry` list here.  The hint argument is used when given, otherwise
    get_hint runs on the path; when no hint can be obtained the function
    returns None without consulting any class. -/
def guessType (hintSize : Nat) (fs : HFS) (registry : List EntryKind)
    (path : String) (hintArg : Option Hint) : Option EntryKind :=
  match (match hintArg with
         | some h => some h
         | none => getHint hintSize fs (some path)) with
  | none => none
  | some h => pickBest path (some h) (sortByScore registry) 0 none

/-- An io.StringIO object: a growable text buffer together with the current
    stream position.  Writing appends at the position and moves the position
    past the written text; read() returns everything from the position to
    the end of the buffer. -/
structure StrStream where
  buf : String
  pos : Nat
deriving DecidableEq

/-- StringIO.write: append (the stream starts empty in serialize, so the
    position is always at the end) and advance the position. -/
def StrStream.writeStr (s : StrStream) (t : String) : StrStream :=
  ⟨s.buf ++ t, (s.buf ++ t).length⟩

/-- StringIO.read with no argument: the suffix of the buffer from the
    current position. -/
def StrStream.readAll (s : StrStream) : String :=
  s.buf.drop s.pos

/-- Minimal quoting of one field by csv.writer: a field containing the
    delimiter, a quote or a line break is wrapped in double quotes with
    inner quotes doubled. -/
def csvQuoteField (delim : Char) (f : String) : String :=
  if f.toList.any (fun c => c = delim || c = '"' || c = '\n' || c = '\r') then
    "\"" ++ String.join (f.toList.map (fun c =>
      if c = '"' then "\"\"" else String.singleton c)) ++ "\""
  else f

/-- One row written by csv.writer: delimiter-joined fields followed by the
    dialect line terminator (the excel family uses a carriage return and a
    line feed). -/
def csvWriteRow (delim : Char) (row : List String) : String :=
  String.intercalate (String.singleton delim) (row.map (csvQuoteField delim)) ++ "\r\n"

/-- CsvEntry.serialize (csv_entry.py lines 65-73): write all rows into a
    fresh StringIO with csv.writer, then return stream.read().  The writes
    leave the stream position at the end of the buffer and the source never
    seeks back, so the returned text is the suffix after the written data,
    namely the empty string, whatever the data was. -/
def csvSerialize (delim : Char) (data : List (List String)) : String :=
  let stream : StrStream := (data.map (csvWriteRow delim)).foldl StrStream.writeStr ⟨"", 0⟩
  stream.readAll

/-- The record csv.reader produces for a single one-character line: line
    break characters give a blank line and hence an empty record, a lone
    delimiter gives two empty fields, any other character gives one
    one-character field. -/
def csvCharRow (delim : Char) (c : Char) : List String :=
  if c = '\n' || c = '\r' then []
  else if c = delim then ["", ""]
  else [String.singleton c]

/-- list(csv.reader(str(serialized), dialect)) as CsvEntry.deserialize runs
    it (csv_entry.py line 81): iterating a string yields its characters one
    by one, and csv.reader treats every element of the iterable as one line,
    so every character of the serialized text becomes its own record. -/
def csvReaderChars (delim : Char) (serialized : String) : List (List String) :=
  serialized.toList.map (csvCharRow delim)

/-- CsvEntry.deserialize (csv_entry.py lines 75-81): first resolve the
    dialect by sniffing the utf-8 hint text of the file at self.path
    (get_dialect raises NotImplementedError when the hint or its decoding is
    unavailable, and csv.Sniffer may raise), then run csv.reader over
    str(serialized). -/
def csvDeserialize (sniff : String → Except Unit Char) (hintText : Option String)
    (serialized : String) : Except Unit (List (List String)) :=
  match hintText with
  | none => .error ()
  | some t =>
    match sniff t with
    | .error _ => .error ()
    | .ok d => .ok (csvReaderChars d serialized)

/-- CsvEntry.shape (csv_entry.py lines 53-60): the pair of the row count and
    the length of the first row for non-empty data, and the empty tuple
    otherwise; tuples are modelled as lists of numbers. -/
def csvShape (data : List (List String)) : List Nat :=
  if data.length > 0 then [data.length, (data.headD []).length]
  else []

/-- One line of the concrete comma-separated test file: six cells. -/
def csvFileLine : String := "0,1,2,3,4,5\n"

/-- A comma-separated file with eight rows of six columns each. -/
def csvFileText : String := String.join (List.replicate 8 csvFileLine)

/-- Splitting a character list at every occurrence of a separator; the
    groups between separators, kept even when empty. -/
def splitListOn (sep : Char) : List Char → List (List Char)
  | [] => [[]]
  | c :: cs =>
    if c = sep then [] :: splitListOn sep cs
    else
      match splitListOn sep cs with
      | [] => [[c]]
      | g :: gs => (c :: g) :: gs

/-- Modelled from the spec: reading a delimited file row by row, the
    intended interpretation of a CSV payload (one record per line, one cell
    per delimiter-separated field).  Used to exhibit what the claimed shape
    of the test file is. -/
def csvReaderLines (delim : Char) (serialized : String) : List (List String) :=
  ((splitListOn '\n' serialized.toList).filter (fun l => !l.isEmpty)).map
    (fun l => (splitListOn delim l).map (fun cs => String.mk cs))

/-- The _data attribute of an Entry: never assigned (hasattr is false),
    assigned the Python value None (as yaml.load returns for an empty
    document), or holding a payload. -/
inductive DataSlot (T : Type) where
  | unset
  | null
  | val (x : T)
deriving DecidableEq

/-- Whether hasattr(self, "_data") holds. -/
def DataSlot.isSet {T : Type} : DataSlot T → Bool
  | .unset => false
  | _ => true

/-- Whether self._data is None. -/
def DataSlot.isNull {T : Type} : DataSlot T → Bool
  | .null => true
  | _ => false

/-- A file on disk as the lifecycle code sees it: its text content and its
    stat().st_mtime, modelled as a natural number. -/
structure FileInfo where
  content : String
  mtime : Nat
deriving DecidableEq

/-- The filesystem for load and save: a partial map from paths to files. -/
def FS : Type := String → Option FileInfo

/-- path.write_text: replace (or create) the file, stamping it with the
    current clock value as its new mtime. -/
def fsWrite (fs : FS) (p : String) (content : String) (now : Nat) : FS :=
  fun q => if q = p then some ⟨content, now⟩ else fs q

/-- The mutable bookkeeping of one Entry instance (entry.py lines 57-78):
    optional path, the _data slot, _loaded_hash (empty string initially) and
    _data_mtime. -/
structure EntryState (T : Type) where
  path : Option String
  dataSlot : DataSlot T
  loadedHash : String
  dataMtime : Option Nat
deriving DecidableEq

/-- The format-specific hooks of a text-encoded concrete Entry class, plus
    the content hash.  hashData models sha256 hexdigest over the encoded
    payload (entry.py lines 330-348); a hexdigest is never the empty
    string.  serializeFn and deserializeFn are the subclass serialize and
    deserialize for payloads read and written as text. -/
structure EntryOps (T : Type) where
  defaultData : T
  hashData : T → String
  serializeFn : T → String
  deserializeFn : String → T

/-- The exceptions the lifecycle code can raise: the MissingPath and
    FileChanged entry exceptions (entry.py lines 44-50), plus the built-in
    OSError of stat or read on a missing file, AttributeError on reading an
    unset _data, and NotImplementedError from the base serialize. -/
inductive EntryErr where
  | missingPath
  | fileChanged
  | fileNotFound
  | attrError
  | notImplemented
deriving DecidableEq

/-- Entry.hash (entry.py lines 330-348): the empty string when _data is
    unset or None, and the content hash of the payload otherwise. -/
def hashOf {T : Type} (ops : EntryOps T) (e : EntryState T) : String :=
  match e.dataSlot with
  | .val x => ops.hashData x
  | _ => ""

/-- Entry.is_file_newer (entry.py lines 287-294) as a Boolean under the
    guard that the stat call succeeds: path and _data_mtime are both set and
    the recorded mtime is older than the mtime on disk.  A missing file
    counts as not newer here; the raising variant is isFileNewerE. -/
def isFileNewerB {T : Type} (fs : FS) (e : EntryState T) : Bool :=
  match e.path, e.dataMtime with
  | some p, some m =>
    match fs p with
    | some fi => decide (m < fi.mtime)
    | none => false
  | _, _ => false

/-- Entry.is_file_newer with the OSError of stat on a missing file made
    explicit, as pre_load calls it without an existence guard. -/
def isFileNewerE {T : Type} (fs : FS) (e : EntryState T) : Except EntryErr Bool :=
  match e.path, e.dataMtime with
  | some p, some m =>
    match fs p with
    | some fi => .ok (decide (m < fi.mtime))
    | none => .error .fileNotFound
  | _, _ => .ok false

/-- Entry.is_stale (entry.py lines 252-285): true when _data was never set;
    false when there is no path or the path does not exist; true when the
    file exists but _data_mtime is unset or _data is None; otherwise true
    exactly when the file is newer than the recorded mtime. -/
def isStale {T : Type} (fs : FS) (e : EntryState T) : Bool :=
  if !e.dataSlot.isSet then true
  else
    match e.path with
    | none => false
    | some p =>
      match fs p with
      | none => false
      | some fi =>
        if e.dataMtime.isNone || e.dataSlot.isNull then true
        else
          match e.dataMtime with
          | some m => decide (m < fi.mtime)
          | none => false

/-- Entry.is_unsaved (entry.py lines 302-328): an entry without a path is
    always unsaved; otherwise it is unsaved exactly when the current hash
    differs from the hash recorded at the last load or save. -/
def isUnsaved {T : Type} (ops : EntryOps T) (e : EntryState T) : Bool :=
  match e.path with
  | none => true
  | some _ => hashOf ops e != e.loadedHash

/-- Entry.reset_hash (entry.py lines 350-356). -/
def resetHash {T : Type} (ops : EntryOps T) (e : EntryState T) : EntryState T :=
  { e with loadedHash := hashOf ops e }

/-- Entry.reset_mtime (entry.py lines 296-300): with a path, stat the file
    and record its mtime (raising OSError when the file is missing); without
    a path do nothing. -/
def resetMtimeE {T : Type} (fs : FS) (e : EntryState T) : Except EntryErr (EntryState T) :=
  match e.path with
  | none => .ok e
  | some p =>
    match fs p with
    | some fi => .ok { e with dataMtime := some fi.mtime }
    | none => .error .fileNotFound

/-- Setting _data to default_data() when it was never set, the first step of
    pre_load. -/
def withDefault {T : Type} (ops : EntryOps T) (e : EntryState T) : EntryState T :=
  match e.dataSlot with
  | .unset => { e with dataSlot := .val ops.defaultData }
  | _ => e

/-- Entry.pre_load (entry.py lines 423-440): install default data if _data
    was never set, then raise FileChanged when the file is newer than the
    recorded mtime and the data counts as unsaved.  The returned state
    carries the mutation even when an exception is raised. -/
def preLoad {T : Type} (ops : EntryOps T) (fs : FS) (e : EntryState T) :
    Except EntryErr Unit × EntryState T :=
  let e1 := withDefault ops e
  match isFileNewerE fs e1 with
  | .error er => (.error er, e1)
  | .ok fn =>
    if fn && isUnsaved ops e1 then (.error .fileChanged, e1) else (.ok (), e1)

/-- Entry.post_load (entry.py lines 442-448): reset_hash then reset_mtime. -/
def postLoad {T : Type} (ops : EntryOps T) (fs : FS) (e : EntryState T) :
    Except EntryErr Unit × EntryState T :=
  let e1 := resetHash ops e
  match resetMtimeE fs e1 with
  | .ok e2 => (.ok (), e2)
  | .error er => (.error er, e1)

/-- Entry.load (entry.py lines 450-477): pre_load, then with a path read the
    file text and store deserialize of it (read_text raises OSError on a
    missing file), or with no path leave the data alone, and finally
    post_load.  The pair returns the raised exception, if any, together with
    the final state of the mutated instance. -/
def entryLoad {T : Type} (ops : EntryOps T) (fs : FS) (e : EntryState T) :
    Except EntryErr Unit × EntryState T :=
  match preLoad ops fs e with
  | (.error er, e1) => (.error er, e1)
  | (.ok _, e1) =>
    match e1.path with
    | some p =>
      match fs p with
      | none => (.error .fileNotFound, e1)
      | some fi =>
        postLoad ops fs { e1 with dataSlot := .val (ops.deserializeFn fi.content) }
    | none => postLoad ops fs e1

/-- Entry.pre_save (entry.py lines 479-502): MissingPath when there is no
    path; FileChanged when overwrite is false, _data is set and the entry is
    stale. -/
def preSave {T : Type} (fs : FS) (e : EntryState T) (overwrite : Bool) :
    Except EntryErr Unit :=
  match e.path with
  | none => .error .missingPath
  | some _ =>
    if !overwrite && e.dataSlot.isSet && isStale fs e then .error .fileChanged
    else .ok ()

/-- Entry.post_save (entry.py lines 504-508): reset_hash then reset_mtime,
    returning the raised exception, if any, with the mutated state (the hash
    reset has already happened when reset_mtime raises). -/
def postSave {T : Type} (ops : EntryOps T) (fs : FS) (e : EntryState T) :
    Except EntryErr Unit × EntryState T :=
  let e1 := resetHash ops e
  match resetMtimeE fs e1 with
  | .ok e2 => (.ok (), e2)
  | .error er => (.error er, e1)

/-- Entry.save (entry.py lines 510-540): pre_save, then if the entry is
    unsaved and has a path serialize the data and write it (reading an unset
    _data raises AttributeError; the base serialize raises
    NotImplementedError on None), and finally post_save.  post_save is not
    in a finally block here, so a pre_save exception leaves the state and
    the filesystem untouched.  The triple is the raised exception, if any,
    the final instance state and the final filesystem. -/
def entrySave {T : Type} (ops : EntryOps T) (fs : FS) (e : EntryState T)
    (overwrite : Bool) (now : Nat) : Except EntryErr Unit × EntryState T × FS :=
  match preSave fs e overwrite with
  | .error er => (.error er, e, fs)
  | .ok _ =>
    if isUnsaved ops e && e.path.isSome then
      match e.dataSlot, e.path with
      | .val x, some p =>
        let fs2 := fsWrite fs p (ops.serializeFn x) now
        let (r, e2) := postSave ops fs2 e
        (r, e2, fs2)
      | .unset, some _ => (.error .attrError, e, fs)
      | .null, some _ => (.error .notImplemented, e, fs)
      | _, none => (.error .missingPath, e, fs)
    else
      let (r, e2) := postSave ops fs e
      (r, e2, fs)

/-- The text Project.save writes: yaml.dump of the project itself through
    its representer, which works from __getstate__ and therefore succeeds
    whatever the _data slot holds; modelled through the serialize hook with
    default data for a state no constructed Project exhibits. -/
def slotSerialize {T : Type} (ops : EntryOps T) : DataSlot T → String
  | .val x => ops.serializeFn x
  | _ => ops.serializeFn ops.defaultData

/-- Project.save (project.py lines 223-241): pre_save and the conditional
    write run inside try, and post_save runs in a finally block, so even
    when pre_save raises, the hash and mtime bookkeeping is reset; an
    exception raised by post_save itself replaces the original one. -/
def projectSave {T : Type} (ops : EntryOps T) (fs : FS) (e : EntryState T)
    (overwrite : Bool) (now : Nat) : Except EntryErr Unit × EntryState T × FS :=
  match preSave fs e overwrite with
  | .error er =>
    let (r2, e2) := postSave ops fs e
    ((match r2 with | .ok _ => Except.error er | .error er2 => .error er2), e2, fs)
  | .ok _ =>
    let fs2 :=
      if isUnsaved ops e && e.path.isSome then
        match e.path with
        | some p => fsWrite fs p (slotSerialize ops e.dataSlot) now
        | none => fs
      else fs
    let (r2, e2) := postSave ops fs2 e
    (r2, e2, fs2)

/-- An absolute filesystem path as its list of components below the root:
    the list a, b names /a/b, and the empty list names the root /. -/
abbrev PathA : Type := List String

/-- An Entry as Project.assign_unique_names sees it: an identity (to track
    one object added twice) and an optional absolute path. -/
structure PEntry where
  eid : Nat
  path : Option PathA
deriving DecidableEq

/-- The longest shared leading run of components of two absolute paths. -/
def commonParts : List String → List String → List String
  | [], _ => []
  | _, [] => []
  | a :: as_, b :: bs => if a = b then a :: commonParts as_ bs else []

/-- os.path.commonpath over a list of absolute paths: the longest common
    leading component run, or the ValueError case (none) for an empty
    list.  With a single path the result is that whole path, file name
    included. -/
def commonPathOf : List PathA → Option PathA
  | [] => none
  | p :: ps => some (ps.foldl commonParts p)

/-- Modelled from the spec: is_root (imported by project.py from
    xamin.utils.path but absent from the sources given) tests whether a path
    is the filesystem root, which the specification describes as the case
    in which the common prefix must not be stripped. -/
def isRoot (p : PathA) : Bool :=
  List.isEmpty p

/-- str of an absolute path. -/
def pathStr (p : PathA) : String :=
  "/" ++ String.intercalate "/" p

/-- Path.name: the final component, which is the empty string for the
    root. -/
def pathName (p : PathA) : String :=
  (p.getLast?).getD ""

/-- Path.relative_to with walk_up=True: climb from the base to the shared
    ancestor with .. steps, then descend to the target.  Both paths are
    absolute here, so the ValueError branch of the source cannot fire. -/
def relWalkUp (base target : PathA) : List String :=
  let c := commonParts base target
  List.replicate (base.length - c.length) ".." ++ target.drop c.length

/-- str of a relative path given by its components: the dot path when there
    are none. -/
def relStr (comps : List String) : String :=
  if comps.isEmpty then "." else String.intercalate "/" comps

/-- The default_name setting of Project rendered at a number: the text
    less-than unsaved greater-than, a space and the number in parentheses
    (project.py lines 32-35). -/
def placeholder (n : Nat) : String :=
  "<unsaved> (" ++ toString n ++ ")"

/-- The name Project.assign_unique_names computes for one entry (project.py
    lines 261-298), where num is the 1-based position of the entry and
    common is the commonpath of all entry paths: a placeholder without a
    path; the file name when the common path equals the whole entry path;
    the absolute path when the common path is the root; otherwise the path
    relative to the common path, walking up when needed. -/
def nameFor (common : Option PathA) (num : Nat) (e : PEntry) : String :=
  match e.path with
  | none => placeholder num
  | some p =>
    match common with
    | some c =>
      if c = p then pathName p
      else if isRoot c then pathStr p
      else relStr (relWalkUp c p)
    | none => pathStr p

/-- Assignment into a Python dict: an existing key keeps its position and
    gets the new value; a new key is appended. -/
def odInsert (l : List (String × PEntry)) (k : String) (v : PEntry) :
    List (String × PEntry) :=
  if l.any (fun kv => kv.1 = k) then
    l.map (fun kv => if kv.1 = k then (k, v) else kv)
  else l ++ [(k, v)]

/-- enumerate(entries, start): each entry paired with its position counted
    from the given start. -/
def enumFrom1 : Nat → List PEntry → List (Nat × PEntry)
  | _, [] => []
  | n, e :: es => (n, e) :: enumFrom1 (n + 1) es

/-- Project.assign_unique_names (project.py lines 243-298): take the entries
    in order, compute the commonpath of those with a path, clear the dict
    and re-insert every entry under its computed name, numbering from 1 as
    enumerate(entries, 1) does; entries deriving the same name collapse onto
    one key. -/
def assignUniqueNames (entries : List PEntry) : List (String × PEntry) :=
  let common := commonPathOf (entries.filterMap (fun e => e.path))
  (enumFrom1 1 entries).foldl
    (fun acc ie => odInsert acc (nameFor common ie.1 ie.2) ie.2) []

/-- Project.add_entries for a single Entry argument (project.py lines
    300-325): the entry is put under a fresh placeholder key (the lowest
    unused number from 0), after the existing values, and then
    assign_unique_names rebuilds every key from the resulting value list,
    discarding the temporary key. -/
def addEntry (proj : List (String × PEntry)) (e : PEntry) : List (String × PEntry) :=
  assignUniqueNames ((proj.map Prod.snd) ++ [e])

/-- The name derivation strategy in the words of the claim for C8 (for
    comparison with nameFor, which is translated from the source): the claim
    keys its file-name case on the common prefix being the parent directory
    of the entry path, where the source compares against the whole entry
    path. -/
def claimStrategyName (common : Option PathA) (num : Nat) (e : PEntry) : String :=
  match e.path with
  | none => placeholder num
  | some p =>
    match common with
    | some c =>
      if c = p.dropLast then pathName p
      else if isRoot c then pathStr p
      else relStr (relWalkUp c p)
    | none => pathStr p

/-- The concrete hooks of TextEntry: default_data is the empty string
    (text_entry.py lines 37-38), serialize is the Entry base passthrough on
    strings (entry.py lines 390-406), deserialize returns the string
    unchanged (text_entry.py lines 40-42), and the content hash is modelled
    by an injective tagging function standing in for the sha256 hexdigest,
    which is never the empty string. -/
def textOps : EntryOps String :=
  ⟨"", fun s => "#" ++ s, fun s => s, fun s => s⟩

/-- A filesystem holding exactly one file, f.txt, with the given content and
    mtime. -/
def fsOne (content : String) (m : Nat) : FS :=
  fun p => if p = "f.txt" then some ⟨content, m⟩ else none

/-- A TextEntry on an existing file whose data was assigned through the data
    setter without ever loading: _data holds a payload while _loaded_hash
    and _data_mtime still have their initial values. -/
def eC2 : EntryState String :=
  ⟨some "f.txt", .val "x", "", none⟩

/-- A TextEntry that loaded "old", was edited to "new" in memory, and whose
    file was then touched externally: the recorded load mtime is 10 while
    the file now carries mtime 20. -/
def eC3 : EntryState String :=
  ⟨some "f.txt", .val "new", "#old", some 10⟩

/-- A TextEntry holding unsaved data "x" over a file last stamped at mtime
    10, the load mtime matching the file. -/
def eC4 : EntryState String :=
  ⟨some "f.txt", .val "x", "", some 10⟩

/-- A project state holding payload "x" whose file was touched externally:
    load mtime 5, file mtime 9, so the entry is stale while holding an
    unsaved payload. -/
def eC10 : EntryState String :=
  ⟨some "f.txt", .val "x", "", some 5⟩

/-- A registered concrete class of score 10 whose is_type always accepts,
    tagged A; registered before kindB. -/
def kindA : EntryKind :=
  ⟨"A", 10, fun _ _ => true⟩

/-- A registered concrete class of score 10 whose is_type always accepts,
    tagged B; registered after kindA. -/
def kindB : EntryKind :=
  ⟨"B", 10, fun _ _ => true⟩

/-- Claim C1: the round-trip deserialize(serialize(x)) == x fails for
    CsvEntry.  serialize writes the rows into a StringIO and then calls
    read() without seeking back, so it returns the empty string for every
    payload; deserialize then yields the empty row list (after sniffing a
    dialect from the file hint), so the round-trip of the CSV grid with
    empty cells [[a, b], [empty, empty]] is [] and not the grid.  The claim
    is right about the intent and the code is the slip. -/
theorem c1_csv_roundtrip_failure :
    csvSerialize ',' [["a", "b"], ["", ""]] = "" ∧
    csvDeserialize (fun _ => .ok ',') (some csvFileText)
      (csvSerialize ',' [["a", "b"], ["", ""]]) = .ok [] ∧
    [["a", "b"], ["", ""]] ≠ ([] : List (List String)) :=
  ⟨rfl, rfl, by decide⟩

/-- Claim C6: a CsvEntry loaded from an 8-row by 6-column comma-separated
    file does not have shape (8, 6).  deserialize hands the raw file text to
    csv.reader, which iterates it character by character, producing one
    record per character: 96 records whose first record has one cell, so the
    shape comes out (96, 1).  The line-based reading the claim describes
    gives (8, 6), confirming the file really is 8 by 6. -/
theorem c6_csv_shape_wrong :
    csvShape (csvReaderChars ',' csvFileText) = [96, 1] ∧
    csvShape (csvReaderLines ',' csvFileText) = [8, 6] ∧
    csvDeserialize (fun _ => .ok ',') (some csvFileText) csvFileText =
      .ok (csvReaderChars ',' csvFileText) ∧
    csvShape (csvReaderChars ',' csvFileText) ≠ [8, 6] :=
  ⟨rfl, rfl, rfl, by decide⟩

/-- Claim C7 (amended): get_hint returns None, never raising, when the path
    is None or the file is absent or unreadable; and with an unobtainable
    hint every registered concrete is_type returns False, except
    BinaryEntry.is_type, which returns True (the source falls through to
    True whenever hint and hint.utf_8 is falsy).  The statements hold for
    every decode, sniffer and yaml parser the external libraries could
    realize. -/
theorem c7_hint_failures_recovered :
    ∀ (sz : Nat) (p : String) (fs : HFS) (decode : List Nat → Option String)
      (sniff : String → Except Unit Char) (parse : String → Except Unit PyYamlKind)
      (path : String),
    getHint sz fs none = none ∧
    getHint sz (fun _ => HFile.absent) (some p) = none ∧
    getHint sz (fun _ => HFile.unreadable) (some p) = none ∧
    textEntryIsType decode none = false ∧
    pythonEntryIsType decode path none = false ∧
    htmlEntryIsType decode path none = false ∧
    xmlEntryIsType decode path none = false ∧
    csvEntryIsType decode sniff none = false ∧
    yamlEntryIsType decode parse none = false ∧
    projectEntryIsType decode none = false ∧
    binaryEntryIsType decode none = true :=
  fun _ _ _ _ _ _ _ => ⟨rfl, rfl, rfl, rfl, rfl, rfl, rfl, rfl, rfl, rfl, rfl⟩

/-- Claim C7 counterexample: the claim says every registered concrete Entry
    subclass returns False from is_type when the hint cannot be obtained,
    but BinaryEntry.is_type returns True on a missing hint. -/
theorem c7_binary_counterexample :
    binaryEntryIsType (fun _ => none) none = true :=
  rfl

/-- Claim C5 counterexample: two classes registered in the order kindA then
    kindB tie at score 10 and both match, yet the guess depends on the
    iteration order of the subclass set (a Python set, whose order is not
    registration order): one order of the same registered set elects kindA,
    the other elects kindB, so the code does not break ties by registration
    order. -/
theorem c5_tie_order_counterexample :
    guessType 2048 (fun _ => HFile.file []) [kindA, kindB] "p" none = some kindA ∧
    guessType 2048 (fun _ => HFile.file []) [kindB, kindA] "p" none = some kindB ∧
    kindA.score = kindB.score ∧
    kindA ≠ kindB := by
  refine ⟨rfl, rfl, rfl, fun h => absurd (congrArg EntryKind.tag h) (by decide)⟩

/-- Claim C8 counterexample: for a project holding a single entry with path
    /usr/local/bin/file1 the code names it file1 (the common path equals the
    whole entry path), while the strategy stated in the claim (file name
    only when the common prefix equals the parent directory, otherwise the
    relative path) would name it with the dot path. -/
theorem c8_single_entry_counterexample :
    assignUniqueNames [⟨0, some ["usr", "local", "bin", "file1"]⟩] =
      [("file1", ⟨0, some ["usr", "local", "bin", "file1"]⟩)] ∧
    claimStrategyName (commonPathOf [["usr", "local", "bin", "file1"]]) 1
      ⟨0, some ["usr", "local", "bin", "file1"]⟩ = "." ∧
    ("file1" : String) ≠ "." :=
  ⟨by decide, by decide, by decide⟩

/-- Claim C9 counterexample: adding the same path-less Entry object to an
    empty Project twice leaves two entries, not one, because the two
    occurrences receive the distinct placeholder names numbered 1 and 2 and
    never collapse. -/
theorem c9_pathless_twice_counterexample :
    (addEntry (addEntry [] ⟨7, none⟩) ⟨7, none⟩).length = 2 ∧
    (addEntry (addEntry [] ⟨7, none⟩) ⟨7, none⟩).length ≠ 1 :=
  ⟨rfl, by decide⟩

theorem resetMtimeE_error {T : Type} (fs : FS) (e : EntryState T) (er : EntryErr)
    (h : resetMtimeE fs e = .error er) : er = .fileNotFound := by
  revert h
  cases hp : e.path with
  | none => simp [resetMtimeE, hp]
  | some p =>
    cases hfs : fs p with
    | none =>
      simp [resetMtimeE, hp, hfs]
      intro h2
      exact h2.symm
    | some fi => simp [resetMtimeE, hp, hfs]

theorem postSave_fst {T : Type} (ops : EntryOps T) (fs : FS) (e : EntryState T) :
    (postSave ops fs e).1 = .ok () ∨ (postSave ops fs e).1 = .error .fileNotFound := by
  unfold postSave
  cases hr : resetMtimeE fs (resetHash ops e) with
  | ok e2 => simp [hr]
  | error er => simp [hr, resetMtimeE_error fs (resetHash ops e) er hr]

theorem entrySave_of_preSave_error {T : Type} (ops : EntryOps T) (fs : FS)
    (e : EntryState T) (ow : Bool) (now : Nat) (er : EntryErr)
    (h : preSave fs e ow = .error er) :
    entrySave ops fs e ow now = (.error er, e, fs) := by
  unfold entrySave
  rw [h]

theorem entrySave_fst_ok_cases {T : Type} (ops : EntryOps T) (fs : FS)
    (e : EntryState T) (ow : Bool) (now : Nat) (h : preSave fs e ow = .ok ()) :
    (entrySave ops fs e ow now).1 ≠ .error .missingPath ∧
    (entrySave ops fs e ow now).1 ≠ .error .fileChanged := by
  cases hp : e.path with
  | none => simp [preSave, hp] at h
  | some p =>
    unfold entrySave
    rw [h]
    cases hd : e.dataSlot with
    | val x =>
      by_cases hu : isUnsaved ops e = true
      · rcases postSave_fst ops (fsWrite fs p (ops.serializeFn x) now) e with h2 | h2 <;>
          simp [hp, hd, hu, h2]
      · rcases postSave_fst ops fs e with h2 | h2 <;> simp [hp, hd, hu, h2]
    | unset =>
      by_cases hu : isUnsaved ops e = true
      · simp [hp, hd, hu]
      · rcases postSave_fst ops fs e with h2 | h2 <;> simp [hp, hd, hu, h2]
    | null =>
      by_cases hu : isUnsaved ops e = true
      · simp [hp, hd, hu]
      · rcases postSave_fst ops fs e with h2 | h2 <;> simp [hp, hd, hu, h2]

theorem preSave_missing_iff {T : Type} (fs : FS) (e : EntryState T) (ow : Bool) :
    preSave fs e ow = .error .missingPath ↔ e.path = none := by
  cases hp : e.path with
  | none => simp [preSave, hp]
  | some p =>
    simp only [preSave, hp]
    split <;> simp

theorem preSave_filechanged_iff {T : Type} (fs : FS) (e : EntryState T) :
    preSave fs e false = .error .fileChanged ↔
      (e.path ≠ none ∧ e.dataSlot.isSet = true ∧ isStale fs e = true) := by
  cases hp : e.path with
  | none => simp [preSave, hp]
  | some p =>
    simp only [preSave, hp, Bool.not_false, Bool.true_and]
    by_cases h1 : e.dataSlot.isSet = true <;> by_cases h2 : isStale fs e = true <;>
      simp [h1, h2]

/-- Claim C2 counterexample: with overwrite false, save raises FileChanged
    on an entry whose data was set but never loaded from its existing file,
    even though the file on disk is not newer than any recorded load (no
    load was ever recorded: _data_mtime is None and is_file_newer is false),
    refuting the claimed exactly-when condition. -/
theorem c2_filechanged_counterexample :
    (entrySave textOps (fsOne "old" 10) eC2 false 99).1 = .error .fileChanged ∧
    isFileNewerB (fsOne "old" 10) eC2 = false ∧
    eC2.dataMtime = none :=
  ⟨rfl, rfl, rfl⟩

/-- Claim C2 (amended): save(overwrite=False) fails with MissingPath exactly
    when the path is absent, and nothing is written nor any state changed in
    that case; it fails with FileChanged exactly when the path is present,
    in-memory data has been set and the entry is stale, that is the file
    exists and either no load mtime is recorded, the data slot holds None,
    or the file mtime is newer than the recorded load mtime; nothing is
    written in that case either. -/
theorem c2_save_preconditions (T : Type) (ops : EntryOps T) (fs : FS)
    (e : EntryState T) (now : Nat) :
    ((entrySave ops fs e false now).1 = .error .missingPath ↔ e.path = none) ∧
    (e.path = none → entrySave ops fs e false now = (.error .missingPath, e, fs)) ∧
    ((entrySave ops fs e false now).1 = .error .fileChanged ↔
      (e.path ≠ none ∧ e.dataSlot.isSet = true ∧ isStale fs e = true)) ∧
    ((entrySave ops fs e false now).1 = .error .fileChanged →
      entrySave ops fs e false now = (.error .fileChanged, e, fs)) := by
  refine ⟨?_, ?_, ?_, ?_⟩
  · constructor
    · intro h
      cases hps : preSave fs e false with
      | ok u =>
        exact absurd h (entrySave_fst_ok_cases ops fs e false now (by rw [hps])).1
      | error er =>
        rw [entrySave_of_preSave_error ops fs e false now er hps] at h
        simp at h
        rw [h] at hps
        exact (preSave_missing_iff fs e false).mp hps
    · intro h
      have hps := (preSave_missing_iff fs e false).mpr h
      rw [entrySave_of_preSave_error ops fs e false now _ hps]
  · intro h
    have hps := (preSave_missing_iff fs e false).mpr h
    exact entrySave_of_preSave_error ops fs e false now _ hps
  · constructor
    · intro h
      cases hps : preSave fs e false with
      | ok u =>
        exact absurd h (entrySave_fst_ok_cases ops fs e false now (by rw [hps])).2
      | error er =>
        rw [entrySave_of_preSave_error ops fs e false now er hps] at h
        simp at h
        rw [h] at hps
        exact (preSave_filechanged_iff fs e).mp hps
    · intro h
      have hps := (preSave_filechanged_iff fs e).mpr h
      rw [entrySave_of_preSave_error ops fs e false now _ hps]
  · intro h
    cases hps : preSave fs e false with
    | ok u =>
      exact absurd h (entrySave_fst_ok_cases ops fs e false now (by rw [hps])).2
    | error er =>
      rw [entrySave_of_preSave_error ops fs e false now er hps] at h
      simp at h
      rw [h] at hps
      exact entrySave_of_preSave_error ops fs e false now _ hps

/-- Witness for c2_save_preconditions at concrete states: a path-less entry
    fails with MissingPath leaving everything untouched, and the stale
    never-loaded entry eC2 fails with FileChanged leaving everything
    untouched. -/
theorem c2_save_preconditions_witness :
    entrySave textOps (fsOne "old" 10) (⟨none, .val "x", "", none⟩ : EntryState String)
      false 5 = (.error .missingPath, ⟨none, .val "x", "", none⟩, fsOne "old" 10) ∧
    entrySave textOps (fsOne "old" 10) eC2 false 5 =
      (.error .fileChanged, eC2, fsOne "old" 10) :=
  ⟨(c2_save_preconditions String textOps (fsOne "old" 10) _ 5).2.1 rfl,
   (c2_save_preconditions String textOps (fsOne "old" 10) eC2 5).2.2.2 rfl⟩

theorem withDefault_path {T : Type} (ops : EntryOps T) (e : EntryState T) :
    (withDefault ops e).path = e.path := by
  obtain ⟨pa, slot, lh, dm⟩ := e
  cases slot <;> rfl

theorem withDefault_of_isSet {T : Type} (ops : EntryOps T) (e : EntryState T)
    (h : e.dataSlot.isSet = true) : withDefault ops e = e := by
  obtain ⟨pa, slot, lh, dm⟩ := e
  cases slot <;> first | rfl | simp [DataSlot.isSet] at h

theorem withDefault_dataSlot_of_isSet {T : Type} (ops : EntryOps T) (e : EntryState T)
    (h : e.dataSlot.isSet = true) : (withDefault ops e).dataSlot = e.dataSlot := by
  rw [withDefault_of_isSet ops e h]

theorem isFileNewerB_withDefault {T : Type} (ops : EntryOps T) (fs : FS)
    (e : EntryState T) : isFileNewerB fs (withDefault ops e) = isFileNewerB fs e := by
  obtain ⟨pa, slot, lh, dm⟩ := e
  cases slot <;> rfl

theorem isFileNewerE_withDefault {T : Type} (ops : EntryOps T) (fs : FS)
    (e : EntryState T) : isFileNewerE fs (withDefault ops e) = isFileNewerE fs e := by
  obtain ⟨pa, slot, lh, dm⟩ := e
  cases slot <;> rfl

theorem isFileNewerE_ok_eq {T : Type} (fs : FS) (e : EntryState T) (fn : Bool)
    (h : isFileNewerE fs e = .ok fn) : isFileNewerB fs e = fn := by
  obtain ⟨pa, slot, lh, dm⟩ := e
  cases pa with
  | none =>
    simp [isFileNewerE] at h
    simp [isFileNewerB, ← h]
  | some p =>
    cases dm with
    | none =>
      simp [isFileNewerE] at h
      simp [isFileNewerB, ← h]
    | some m =>
      cases hfs : fs p with
      | none => simp [isFileNewerE, hfs] at h
      | some fi =>
        simp [isFileNewerE, hfs] at h
        simp [isFileNewerB, hfs, h]

theorem isFileNewerE_error_cases {T : Type} (fs : FS) (e : EntryState T) (er : EntryErr)
    (h : isFileNewerE fs e = .error er) :
    er = .fileNotFound ∧ isFileNewerB fs e = false := by
  obtain ⟨pa, slot, lh, dm⟩ := e
  cases pa with
  | none => simp [isFileNewerE] at h
  | some p =>
    cases dm with
    | none => simp [isFileNewerE] at h
    | some m =>
      cases hfs : fs p with
      | some fi => simp [isFileNewerE, hfs] at h
      | none =>
        simp [isFileNewerE, hfs] at h
        simp [isFileNewerB, hfs, h]

theorem dataMtime_none_not_newer {T : Type} (fs : FS) (e : EntryState T)
    (h : e.dataMtime = none) : isFileNewerB fs e = false := by
  obtain ⟨pa, slot, lh, dm⟩ := e
  simp at h
  subst h
  cases pa <;> rfl

theorem isSet_iff_ne_unset {T : Type} (s : DataSlot T) :
    s.isSet = true ↔ s ≠ DataSlot.unset := by
  cases s <;> simp [DataSlot.isSet]

theorem preLoad_snd {T : Type} (ops : EntryOps T) (fs : FS) (e : EntryState T) :
    (preLoad ops fs e).2 = withDefault ops e := by
  unfold preLoad
  cases h : isFileNewerE fs (withDefault ops e) with
  | error er => simp [h]
  | ok fn =>
    simp only [h]
    split <;> rfl

theorem preLoad_filechanged_iff {T : Type} (ops : EntryOps T) (fs : FS)
    (e : EntryState T) :
    (preLoad ops fs e).1 = .error .fileChanged ↔
      (isFileNewerB fs e = true ∧ isUnsaved ops (withDefault ops e) = true) := by
  unfold preLoad
  cases h : isFileNewerE fs (withDefault ops e) with
  | error er =>
    have hc := isFileNewerE_error_cases fs (withDefault ops e) er h
    rw [isFileNewerB_withDefault ops fs e] at hc
    simp [h, hc.1, hc.2]
  | ok fn =>
    have hb : isFileNewerB fs e = fn := by
      rw [← isFileNewerB_withDefault ops fs e]
      exact isFileNewerE_ok_eq fs (withDefault ops e) fn h
    by_cases hu : isUnsaved ops (withDefault ops e) = true <;>
      cases fn <;> simp [h, hb, hu]

theorem preLoad_fst_ok_of_path_none {T : Type} (ops : EntryOps T) (fs : FS)
    (e : EntryState T) (hp : e.path = none) : (preLoad ops fs e).1 = .ok () := by
  have hn : isFileNewerE fs (withDefault ops e) = .ok false := by
    rw [isFileNewerE_withDefault ops fs e]
    obtain ⟨pa, slot, lh, dm⟩ := e
    simp at hp
    subst hp
    cases dm <;> rfl
  unfold preLoad
  simp [hn]

theorem postLoad_fst {T : Type} (ops : EntryOps T) (fs : FS) (e : EntryState T) :
    (postLoad ops fs e).1 = .ok () ∨ (postLoad ops fs e).1 = .error .fileNotFound := by
  unfold postLoad
  cases hr : resetMtimeE fs (resetHash ops e) with
  | ok e2 => simp [hr]
  | error er => simp [hr, resetMtimeE_error fs (resetHash ops e) er hr]

theorem resetMtimeE_none {T : Type} (fs : FS) (x : EntryState T)
    (hp : x.path = none) : resetMtimeE fs x = .ok x := by
  obtain ⟨pa, slot, lh, dm⟩ := x
  simp at hp
  subst hp
  rfl

theorem resetMtimeE_some {T : Type} (fs : FS) (x : EntryState T) (p : String)
    (fi : FileInfo) (hp : x.path = some p) (hfs : fs p = some fi) :
    resetMtimeE fs x = .ok { x with dataMtime := some fi.mtime } := by
  obtain ⟨pa, slot, lh, dm⟩ := x
  simp at hp
  subst hp
  simp [resetMtimeE, hfs]

theorem resetMtimeE_ok_dataSlot {T : Type} (fs : FS) (x y : EntryState T)
    (h : resetMtimeE fs x = .ok y) : y.dataSlot = x.dataSlot := by
  obtain ⟨pa, slot, lh, dm⟩ := x
  cases pa with
  | none =>
    simp [resetMtimeE] at h
    rw [← h]
  | some p =>
    cases hfs : fs p with
    | none => simp [resetMtimeE, hfs] at h
    | some fi =>
      simp [resetMtimeE, hfs] at h
      rw [← h]

theorem postLoad_dataSlot {T : Type} (ops : EntryOps T) (fs : FS) (e : EntryState T) :
    (postLoad ops fs e).2.dataSlot = e.dataSlot := by
  unfold postLoad
  cases hr : resetMtimeE fs (resetHash ops e) with
  | ok e2 =>
    simp only [hr]
    exact resetMtimeE_ok_dataSlot fs (resetHash ops e) e2 hr
  | error er =>
    simp only [hr]
    rfl

theorem entryLoad_filechanged_iff {T : Type} (ops : EntryOps T) (fs : FS)
    (e : EntryState T) :
    (entryLoad ops fs e).1 = .error .fileChanged ↔
      (preLoad ops fs e).1 = .error .fileChanged := by
  unfold entryLoad
  cases hpl : preLoad ops fs e with
  | mk r e1 =>
    cases r with
    | error er => simp [hpl]
    | ok u =>
      obtain ⟨pa1, slot1, lh1, dm1⟩ := e1
      simp only [hpl]
      constructor
      · intro h
        exfalso
        cases pa1 with
        | none =>
          rcases postLoad_fst ops fs ⟨none, slot1, lh1, dm1⟩ with h2 | h2 <;>
            simp [h2] at h
        | some p =>
          cases hfs : fs p with
          | none => simp [hfs] at h
          | some fi =>
            rcases postLoad_fst ops fs
                ⟨some p, .val (ops.deserializeFn fi.content), lh1, dm1⟩ with h2 | h2 <;>
              simp [hfs, h2] at h
      · intro h
        simp at h

/-- Claim C3 counterexample: a freshly constructed entry over an existing
    file that is saved without touching its data reaches a state holding a
    recorded load mtime but no in-memory data, because save() runs
    post_save unconditionally (entry.py line 540) and post_save records the
    file mtime.  After an external touch of the file, load() on that state
    raises FileChanged (pre_load installs default data whose hash differs
    from the empty loaded hash), even though the object held no in-memory
    data before the call — refuting the claimed exactly-when condition,
    which requires already-held unsaved data. -/
theorem c3_fresh_save_touch_counterexample :
    entrySave textOps (fsOne "old" 10) (⟨some "f.txt", .unset, "", none⟩ : EntryState String)
      false 99 = (.ok (), ⟨some "f.txt", .unset, "", some 10⟩, fsOne "old" 10) ∧
    (entryLoad textOps (fsOne "old" 20)
      (⟨some "f.txt", .unset, "", some 10⟩ : EntryState String)).1 = .error .fileChanged ∧
    (⟨some "f.txt", DataSlot.unset, "", some 10⟩ : EntryState String).dataSlot.isSet =
      false :=
  ⟨rfl, rfl, rfl⟩

/-- Claim C3 (amended): load raises FileChanged exactly when the file mtime
    is newer than the last recorded load mtime AND the data current at the
    check is unsaved — the held in-memory data when present, else the
    default data that pre_load has just installed (a recorded mtime without
    held data is reachable by saving a fresh entry).  On the FileChanged
    exit the state is exactly the pre-state with the default filled in, so
    any held in-memory data is not overwritten; and with no path, load
    succeeds and leaves the default (or already present) data in place. -/
theorem c3_load_preconditions_amended (T : Type) (ops : EntryOps T) (fs : FS)
    (e : EntryState T) :
    ((entryLoad ops fs e).1 = .error .fileChanged ↔
      (isFileNewerB fs e = true ∧ isUnsaved ops (withDefault ops e) = true)) ∧
    ((entryLoad ops fs e).1 = .error .fileChanged →
      (entryLoad ops fs e).2 = withDefault ops e) ∧
    (e.path = none →
      (entryLoad ops fs e).1 = .ok () ∧
      (entryLoad ops fs e).2.dataSlot = (withDefault ops e).dataSlot) := by
  refine ⟨?_, ?_, ?_⟩
  · rw [entryLoad_filechanged_iff ops fs e, preLoad_filechanged_iff ops fs e]
  · intro h
    rw [entryLoad_filechanged_iff ops fs e] at h
    unfold entryLoad
    cases hpl : preLoad ops fs e with
    | mk r e1 =>
      have he1 : e1 = withDefault ops e := by
        have h2 := preLoad_snd ops fs e
        rw [hpl] at h2
        exact h2
      rw [hpl] at h
      simp at h
      subst h
      simp only [hpl]
      exact he1
  · intro hp
    have hokp : (preLoad ops fs e).1 = .ok () := preLoad_fst_ok_of_path_none ops fs e hp
    unfold entryLoad
    cases hpl : preLoad ops fs e with
    | mk r e1 =>
      have he1 : e1 = withDefault ops e := by
        have h2 := preLoad_snd ops fs e
        rw [hpl] at h2
        exact h2
      rw [hpl] at hokp
      simp at hokp
      subst hokp
      have hp1 : e1.path = none := by rw [he1, withDefault_path ops e, hp]
      simp only [hpl, hp1]
      have hrm : resetMtimeE fs (resetHash ops e1) = .ok (resetHash ops e1) :=
        resetMtimeE_none fs (resetHash ops e1) hp1
      have hps : postLoad ops fs e1 = (.ok (), resetHash ops e1) := by
        unfold postLoad
        simp only [hrm]
      rw [hps]
      refine ⟨rfl, ?_⟩
      rw [he1]
      rfl

/-- Witness for c3_load_preconditions_amended: the loaded-edited-touched
    entry eC3 raises FileChanged keeping its held payload in place, and a
    fresh path-less entry loads without error. -/
theorem c3_load_preconditions_amended_witness :
    (entryLoad textOps (fsOne "ext" 20) eC3).1 = .error .fileChanged ∧
    (entryLoad textOps (fsOne "ext" 20) eC3).2 = withDefault textOps eC3 ∧
    (entryLoad textOps (fsOne "ext" 20)
      (⟨none, .unset, "", none⟩ : EntryState String)).1 = .ok () := by
  have h := c3_load_preconditions_amended String textOps (fsOne "ext" 20) eC3
  have h2 := c3_load_preconditions_amended String textOps (fsOne "ext" 20)
    ⟨none, .unset, "", none⟩
  exact ⟨h.1.mpr (by decide), h.2.1 (h.1.mpr (by decide)), (h2.2.2 rfl).1⟩

theorem entrySave_clean {T : Type} (ops : EntryOps T) (fs1 : FS) (e1 : EntryState T)
    (now2 : Nat) (p : String) (fi : FileInfo)
    (hp : e1.path = some p) (hfs : fs1 p = some fi)
    (hm : e1.dataMtime = some fi.mtime)
    (hh : e1.loadedHash = hashOf ops e1)
    (hnn : e1.dataSlot.isNull = false) :
    entrySave ops fs1 e1 false now2 = (.ok (), e1, fs1) ∧
    isUnsaved ops e1 = false := by
  obtain ⟨pa, slot, lh, dm⟩ := e1
  simp at hp hm
  subst hp
  subst hm
  cases slot with
  | null => simp [DataSlot.isNull] at hnn
  | unset =>
    simp [hashOf] at hh
    subst hh
    have hpre : preSave fs1 (⟨some p, .unset, "", some fi.mtime⟩ : EntryState T) false =
        .ok () := by
      simp [preSave, DataSlot.isSet]
    refine ⟨?_, ?_⟩
    · unfold entrySave
      rw [hpre]
      simp [isUnsaved, hashOf, postSave, resetHash, resetMtimeE, hfs]
    · simp [isUnsaved, hashOf]
  | val x =>
    simp [hashOf] at hh
    subst hh
    have hpre : preSave fs1
        (⟨some p, .val x, ops.hashData x, some fi.mtime⟩ : EntryState T) false =
        .ok () := by
      simp [preSave, isStale, DataSlot.isSet, DataSlot.isNull, hfs]
    refine ⟨?_, ?_⟩
    · unfold entrySave
      rw [hpre]
      simp [isUnsaved, hashOf, postSave, resetHash, resetMtimeE, hfs]
    · simp [isUnsaved, hashOf]

/-- Claim C4: save is idempotent on a clean entry.  Whenever a first
    save(overwrite=False) returns without an exception, a second save from
    the resulting entry state performs no write at all: it returns the same
    entry state and the very same filesystem (same content, same mtime),
    because after the first save is_unsaved is false and the write is
    skipped. -/
theorem c4_save_idempotent (T : Type) (ops : EntryOps T) (fs : FS) (e : EntryState T)
    (now now2 : Nat)
    (h : (entrySave ops fs e false now).1 = .ok ()) :
    entrySave ops (entrySave ops fs e false now).2.2 (entrySave ops fs e false now).2.1
        false now2 =
      (.ok (), (entrySave ops fs e false now).2.1, (entrySave ops fs e false now).2.2) ∧
    isUnsaved ops (entrySave ops fs e false now).2.1 = false := by
  obtain ⟨pa, slot, lh, dm⟩ := e
  cases pa with
  | none =>
    rw [entrySave_of_preSave_error ops fs _ false now .missingPath
      ((preSave_missing_iff fs _ false).mpr rfl)] at h
    simp at h
  | some p =>
    cases hps : preSave fs (⟨some p, slot, lh, dm⟩ : EntryState T) false with
    | error er =>
      rw [entrySave_of_preSave_error ops fs _ false now er hps] at h
      simp at h
    | ok u =>
      by_cases hu : isUnsaved ops (⟨some p, slot, lh, dm⟩ : EntryState T) = true
      · cases slot with
        | unset =>
          have hE : entrySave ops fs (⟨some p, .unset, lh, dm⟩ : EntryState T) false now =
              (.error .attrError, ⟨some p, .unset, lh, dm⟩, fs) := by
            unfold entrySave
            rw [hps]
            simp [hu]
          rw [hE] at h
          simp at h
        | null =>
          have hE : entrySave ops fs (⟨some p, .null, lh, dm⟩ : EntryState T) false now =
              (.error .notImplemented, ⟨some p, .null, lh, dm⟩, fs) := by
            unfold entrySave
            rw [hps]
            simp [hu]
          rw [hE] at h
          simp at h
        | val x =>
          have hE : entrySave ops fs (⟨some p, .val x, lh, dm⟩ : EntryState T) false now =
              (.ok (), ⟨some p, .val x, ops.hashData x, some now⟩,
                fsWrite fs p (ops.serializeFn x) now) := by
            unfold entrySave
            rw [hps]
            simp [hu, postSave, resetHash, hashOf, resetMtimeE, fsWrite]
          rw [hE]
          exact entrySave_clean ops (fsWrite fs p (ops.serializeFn x) now)
            ⟨some p, .val x, ops.hashData x, some now⟩ now2 p
            ⟨ops.serializeFn x, now⟩ rfl (by simp [fsWrite]) rfl rfl rfl
      · cases hfs : fs p with
        | none =>
          have hE : entrySave ops fs (⟨some p, slot, lh, dm⟩ : EntryState T) false now =
              (.error .fileNotFound,
                ⟨some p, slot, hashOf ops (⟨some p, slot, lh, dm⟩ : EntryState T), dm⟩,
                fs) := by
            unfold entrySave
            rw [hps]
            simp [hu, postSave, resetHash, resetMtimeE, hfs]
          rw [hE] at h
          simp at h
        | some fi =>
          have hnn : (DataSlot.isNull slot) = false := by
            cases slot with
            | null =>
              simp [preSave, isStale, DataSlot.isSet, DataSlot.isNull, hfs] at hps
            | unset => rfl
            | val x => rfl
          have hE : entrySave ops fs (⟨some p, slot, lh, dm⟩ : EntryState T) false now =
              (.ok (), ⟨some p, slot, hashOf ops (⟨some p, slot, lh, dm⟩ : EntryState T),
                some fi.mtime⟩, fs) := by
            unfold entrySave
            rw [hps]
            simp [hu, postSave, resetHash, resetMtimeE, hfs]
          rw [hE]
          exact entrySave_clean ops fs
            ⟨some p, slot, hashOf ops (⟨some p, slot, lh, dm⟩ : EntryState T), some fi.mtime⟩
            now2 p fi rfl hfs rfl (by cases slot <;> simp [hashOf]) hnn

/-- Witness for c4_save_idempotent: a successful concrete first save of eC4
    writes the file, and the second save returns the same state and
    filesystem unchanged. -/
theorem c4_save_idempotent_witness :
    entrySave textOps (entrySave textOps (fsOne "old" 10) eC4 false 99).2.2
        (entrySave textOps (fsOne "old" 10) eC4 false 99).2.1 false 120 =
      (.ok (), (entrySave textOps (fsOne "old" 10) eC4 false 99).2.1,
        (entrySave textOps (fsOne "old" 10) eC4 false 99).2.2) ∧
    isUnsaved textOps (entrySave textOps (fsOne "old" 10) eC4 false 99).2.1 = false :=
  c4_save_idempotent String textOps (fsOne "old" 10) eC4 99 120 rfl

/-- Claim C10: Project.save is not atomic on failure.  post_save runs in a
    finally block, so when save(overwrite=False) raises FileChanged on a
    stale project with a path, loaded_hash is still reset to the current
    data hash and data_mtime to the file mtime on disk; afterwards
    is_unsaved is false and a subsequent save returns without writing
    anything, leaving the filesystem exactly as it was even though the data
    was never persisted.  When the path is missing, MissingPath is raised
    and loaded_hash is still reset (reset_mtime does nothing without a
    path). -/
theorem c10_project_save_not_atomic (T : Type) (ops : EntryOps T) (fs : FS)
    (e : EntryState T) (p : String) (fi : FileInfo) (x : T) (now now2 : Nat)
    (hp : e.path = some p) (hfs : fs p = some fi) (hd : e.dataSlot = .val x)
    (hstale : isStale fs e = true) :
    projectSave ops fs e false now =
      (.error .fileChanged,
        { e with loadedHash := ops.hashData x, dataMtime := some fi.mtime }, fs) ∧
    isUnsaved ops { e with loadedHash := ops.hashData x, dataMtime := some fi.mtime } =
      false ∧
    projectSave ops fs { e with loadedHash := ops.hashData x, dataMtime := some fi.mtime }
        false now2 =
      (.ok (), { e with loadedHash := ops.hashData x, dataMtime := some fi.mtime }, fs) ∧
    (∀ e2 : EntryState T, e2.path = none →
      projectSave ops fs e2 false now = (.error .missingPath, resetHash ops e2, fs)) := by
  obtain ⟨pa, slot, lh, dm⟩ := e
  simp at hp hd
  subst hp
  subst hd
  have hpre : preSave fs (⟨some p, .val x, lh, dm⟩ : EntryState T) false =
      .error .fileChanged := by
    apply (preSave_filechanged_iff fs _).mpr
    exact ⟨by simp, rfl, hstale⟩
  have hpost : postSave ops fs (⟨some p, .val x, lh, dm⟩ : EntryState T) =
      (.ok (), ⟨some p, .val x, ops.hashData x, some fi.mtime⟩) := by
    unfold postSave
    simp only [resetMtimeE_some fs (resetHash ops (⟨some p, .val x, lh, dm⟩ : EntryState T))
      p fi rfl hfs]
    rfl
  have hpre2 : preSave fs
      (⟨some p, .val x, ops.hashData x, some fi.mtime⟩ : EntryState T) false = .ok () := by
    simp [preSave, isStale, DataSlot.isSet, DataSlot.isNull, hfs]
  have hpost2 : postSave ops fs
      (⟨some p, .val x, ops.hashData x, some fi.mtime⟩ : EntryState T) =
      (.ok (), ⟨some p, .val x, ops.hashData x, some fi.mtime⟩) := by
    unfold postSave
    simp only [resetMtimeE_some fs
      (resetHash ops (⟨some p, .val x, ops.hashData x, some fi.mtime⟩ : EntryState T))
      p fi rfl hfs]
    rfl
  refine ⟨?_, ?_, ?_, ?_⟩
  · unfold projectSave
    rw [hpre]
    simp [hpost]
  · simp [isUnsaved, hashOf]
  · unfold projectSave
    rw [hpre2]
    simp [isUnsaved, hashOf, hpost2]
  · intro e2 hp2
    have hpre3 : preSave fs e2 false = .error .missingPath :=
      (preSave_missing_iff fs e2 false).mpr hp2
    have hpost3 : postSave ops fs e2 = (.ok (), resetHash ops e2) := by
      unfold postSave
      simp only [resetMtimeE_none fs (resetHash ops e2) hp2]
    unfold projectSave
    rw [hpre3]
    simp [hpost3]

/-- Witness for c10_project_save_not_atomic: the concrete stale project
    eC10 over the file at mtime 9 fails with FileChanged yet its hash and
    mtime bookkeeping is reset, and the subsequent save silently succeeds
    without writing. -/
theorem c10_project_save_not_atomic_witness :
    projectSave textOps (fsOne "ext" 9) eC10 false 50 =
      (.error .fileChanged,
        { eC10 with loadedHash := textOps.hashData "x", dataMtime := some 9 }, fsOne "ext" 9) ∧
    isUnsaved textOps
      { eC10 with loadedHash := textOps.hashData "x", dataMtime := some 9 } = false ∧
    projectSave textOps (fsOne "ext" 9)
        { eC10 with loadedHash := textOps.hashData "x", dataMtime := some 9 } false 60 =
      (.ok (), { eC10 with loadedHash := textOps.hashData "x", dataMtime := some 9 },
        fsOne "ext" 9) ∧
    (∀ e2 : EntryState String, e2.path = none →
      projectSave textOps (fsOne "ext" 9) e2 false 50 =
        (.error .missingPath, resetHash textOps e2, fsOne "ext" 9)) :=
  c10_project_save_not_atomic String textOps (fsOne "ext" 9) eC10 "f.txt" ⟨"ext", 9⟩
    "x" 50 60 rfl rfl rfl rfl

theorem mem_insertByScore (k a : EntryKind) (l : List EntryKind) :
    a ∈ insertByScore k l ↔ a = k ∨ a ∈ l := by
  induction l with
  | nil => simp [insertByScore]
  | cons x xs ih =>
    unfold insertByScore
    split
    · simp [List.mem_cons]
    · simp only [List.mem_cons, ih]
      tauto

theorem mem_sortByScore (a : EntryKind) (l : List EntryKind) :
    a ∈ sortByScore l ↔ a ∈ l := by
  suffices h : ∀ acc, a ∈ l.foldl (fun acc k => insertByScore k acc) acc ↔
      (a ∈ acc ∨ a ∈ l) by
    simpa [sortByScore] using h []
  induction l with
  | nil => intro acc; simp
  | cons x xs ih =>
    intro acc
    simp only [List.foldl_cons]
    rw [ih (insertByScore x acc), mem_insertByScore]
    simp only [List.mem_cons]
    tauto

theorem pickBest_spec (path : String) (hint : Option Hint) :
    ∀ (L : List EntryKind) (hs : Nat) (best : Option EntryKind),
    (∀ k ∈ L, 0 < k.score) →
    (match best with
     | none => hs = 0
     | some b => b.isType path hint = true ∧ b.score = hs) →
    (match pickBest path hint L hs best with
     | none => best = none ∧ ∀ k ∈ L, k.isType path hint = false
     | some k => k.isType path hint = true ∧ (best = some k ∨ k ∈ L) ∧ hs ≤ k.score ∧
         ∀ k2 ∈ L, k2.isType path hint = true → k2.score ≤ k.score) := by
  intro L
  induction L with
  | nil =>
    intro hs best hpos hinv
    cases best with
    | none => simp [pickBest]
    | some b =>
      show b.isType path hint = true ∧ (some b = some b ∨ b ∈ ([] : List EntryKind)) ∧
        hs ≤ b.score ∧
        ∀ k2 ∈ ([] : List EntryKind), k2.isType path hint = true → k2.score ≤ b.score
      exact ⟨hinv.1, Or.inl rfl, Nat.le_of_eq hinv.2.symm, by simp⟩
  | cons c rest ih =>
    intro hs best hpos hinv
    unfold pickBest
    by_cases hc : (decide (hs < c.score) && c.isType path hint) = true
    · rw [if_pos hc]
      simp only [Bool.and_eq_true, decide_eq_true_eq] at hc
      have hres := ih c.score (some c)
        (fun k hk => hpos k (List.mem_cons_of_mem c hk)) ⟨hc.2, rfl⟩
      cases hr : pickBest path hint rest c.score (some c) with
      | none =>
        rw [hr] at hres
        exact absurd hres.1 (by simp)
      | some k =>
        rw [hr] at hres
        obtain ⟨hkt, hkm, hks, hkb⟩ := hres
        refine ⟨hkt, ?_, Nat.le_of_lt (Nat.lt_of_lt_of_le hc.1 hks), ?_⟩
        · rcases hkm with h2 | h2
          · cases Option.some.inj h2
            exact Or.inr (List.mem_cons_self _ _)
          · exact Or.inr (List.mem_cons_of_mem c h2)
        · intro k2 hk2 ht2
          rcases List.mem_cons.mp hk2 with rfl | h2
          · exact hks
          · exact hkb k2 h2 ht2
    · rw [if_neg hc]
      have hres := ih hs best (fun k hk => hpos k (List.mem_cons_of_mem c hk)) hinv
      cases hr : pickBest path hint rest hs best with
      | none =>
        rw [hr] at hres
        obtain ⟨hb, hall⟩ := hres
        refine ⟨hb, ?_⟩
        intro k hk
        rcases List.mem_cons.mp hk with rfl | h2
        · by_contra hct
          simp only [Bool.not_eq_false] at hct
          simp only [hct, Bool.and_true, decide_eq_true_eq] at hc
          rw [hb] at hinv
          simp only [] at hinv
          rw [hinv] at hc
          exact hc (hpos k (List.mem_cons_self k rest))
        · exact hall k h2
      | some k =>
        rw [hr] at hres
        obtain ⟨hkt, hkm, hks, hkb⟩ := hres
        refine ⟨hkt, ?_, hks, ?_⟩
        · rcases hkm with h2 | h2
          · exact Or.inl h2
          · exact Or.inr (List.mem_cons_of_mem c h2)
        · intro k2 hk2 ht2
          rcases List.mem_cons.mp hk2 with rfl | h2
          · simp only [ht2, Bool.and_true, decide_eq_true_eq] at hc
            exact Nat.le_trans (Nat.le_of_not_lt hc) hks
          · exact hkb k2 h2 ht2

/-- Claim C5 (amended): guess_type returns None when the hint cannot be
    obtained (it defers to get_hint exactly when no hint is given); with a
    hint, it returns None exactly when no registered class matches, and any
    returned class is a registered matching class of maximal score among the
    matching classes.  Ties at the maximal score are broken by the iteration
    order of the subclass set, which is not registration order (see the
    counterexample); all registered concrete classes in the code score at
    least 5, which the positivity hypothesis reflects. -/
theorem c5_guess_type_amended (sz : Nat) (fs : HFS) (registry : List EntryKind)
    (path : String) (h : Hint)
    (hpos : ∀ k ∈ registry, 0 < k.score) :
    (guessType sz fs registry path none =
      (match getHint sz fs (some path) with
       | none => none
       | some h2 => guessType sz fs registry path (some h2))) ∧
    ((guessType sz fs registry path (some h) = none) ↔
      ∀ k ∈ registry, k.isType path (some h) = false) ∧
    (∀ k, guessType sz fs registry path (some h) = some k →
      k ∈ registry ∧ k.isType path (some h) = true ∧
      ∀ k2 ∈ registry, k2.isType path (some h) = true → k2.score ≤ k.score) := by
  have hpos2 : ∀ k ∈ sortByScore registry, 0 < k.score :=
    fun k hk => hpos k ((mem_sortByScore k registry).mp hk)
  have hspec := pickBest_spec path (some h) (sortByScore registry) 0 none hpos2 rfl
  refine ⟨?_, ?_, ?_⟩
  · cases hg : getHint sz fs (some path) with
    | none => simp [guessType, hg]
    | some h2 => simp [guessType, hg]
  · constructor
    · intro hn
      have hn2 : pickBest path (some h) (sortByScore registry) 0 none = none := by
        simpa [guessType] using hn
      rw [hn2] at hspec
      intro k hk
      exact hspec.2 k ((mem_sortByScore k registry).mpr hk)
    · intro hall
      cases hg2 : pickBest path (some h) (sortByScore registry) 0 none with
      | none => simp [guessType, hg2]
      | some k =>
        rw [hg2] at hspec
        obtain ⟨hkt, hkm, _, _⟩ := hspec
        rcases hkm with h2 | h2
        · exact absurd h2 (by simp)
        · rw [hall k ((mem_sortByScore k registry).mp h2)] at hkt
          cases hkt
  · intro k hgk
    have hg2 : pickBest path (some h) (sortByScore registry) 0 none = some k := by
      simpa [guessType] using hgk
    rw [hg2] at hspec
    obtain ⟨hkt, hkm, _, hkb⟩ := hspec
    rcases hkm with h2 | h2
    · exact absurd h2 (by simp)
    · refine ⟨(mem_sortByScore k registry).mp h2, hkt, ?_⟩
      intro k2 hk2 ht2
      exact hkb k2 ((mem_sortByScore k2 registry).mpr hk2) ht2

/-- Witness for c5_guess_type_amended on the concrete two-class registry in
    the set order kindB then kindA: the returned class kindB is registered,
    matches, and carries the maximal score among matching classes. -/
theorem c5_guess_type_amended_witness :
    guessType 2048 (fun _ => HFile.file []) [kindB, kindA] "p" (some ⟨[]⟩) = some kindB ∧
    (kindB ∈ [kindB, kindA] ∧ kindB.isType "p" (some ⟨[]⟩) = true ∧
      ∀ k2 ∈ [kindB, kindA], k2.isType "p" (some ⟨[]⟩) = true →
        k2.score ≤ kindB.score) := by
  have hpos : ∀ k ∈ [kindB, kindA], 0 < k.score := by
    intro k hk
    rcases List.mem_cons.mp hk with rfl | hk2
    · decide
    · rcases List.mem_cons.mp hk2 with rfl | hk3
      · decide
      · cases hk3
  exact ⟨rfl, (c5_guess_type_amended 2048 (fun _ => HFile.file []) [kindB, kindA]
    "p" ⟨[]⟩ hpos).2.2 kindB rfl⟩

theorem odInsert_fst_nodup (l : List (String × PEntry)) (k : String) (v : PEntry)
    (h : (l.map Prod.fst).Nodup) : ((odInsert l k v).map Prod.fst).Nodup := by
  unfold odInsert
  split
  next hany =>
    have hmap : (l.map (fun kv => if kv.1 = k then (k, v) else kv)).map Prod.fst =
        l.map Prod.fst := by
      rw [List.map_map]
      apply List.map_congr_left
      intro kv hkv
      by_cases hk : kv.1 = k
      · simp [hk]
      · simp [hk]
    rw [hmap]
    exact h
  next hany =>
    rw [List.map_append]
    refine List.Nodup.append h (List.nodup_singleton k) ?_
    intro a ha hb
    simp only [List.map_cons, List.map_nil, List.mem_singleton] at hb
    subst hb
    apply hany
    rw [List.any_eq_true]
    obtain ⟨kv, hkvm, hkva⟩ := List.mem_map.mp ha
    exact ⟨kv, hkvm, by simp [hkva]⟩

theorem assign_fst_nodup (entries : List PEntry) :
    ((assignUniqueNames entries).map Prod.fst).Nodup := by
  unfold assignUniqueNames
  generalize commonPathOf (entries.filterMap (fun e => e.path)) = common
  generalize enumFrom1 1 entries = ies
  suffices h : ∀ (ies2 : List (Nat × PEntry)) (acc : List (String × PEntry)),
      (acc.map Prod.fst).Nodup →
      ((ies2.foldl (fun acc ie => odInsert acc (nameFor common ie.1 ie.2) ie.2) acc).map
        Prod.fst).Nodup by
    exact h ies [] (by simp)
  intro ies2
  induction ies2 with
  | nil => intro acc hacc; simpa using hacc
  | cons ie rest ih =>
    intro acc hacc
    simp only [List.foldl_cons]
    exact ih _ (odInsert_fst_nodup acc _ _ hacc)

theorem commonParts_append (l r : List String) : commonParts l (l ++ r) = l := by
  induction l with
  | nil => cases r <;> rfl
  | cons a as ih => simp [commonParts, ih]

theorem commonParts_self (l : List String) : commonParts l l = l := by
  simpa using commonParts_append l []

theorem intercalate_single (sep x : String) : String.intercalate sep [x] = x := rfl

theorem nameFor_common_full (num : Nat) (e : PEntry) (p : PathA) (hp : e.path = some p) :
    nameFor (some p) num e = pathName p := by
  obtain ⟨i, pa⟩ := e
  simp at hp
  subst hp
  simp [nameFor]

theorem nameFor_eq_claim (c : PathA) (num : Nat) (e : PEntry) (p : PathA)
    (hp : e.path = some p) (hne : c ≠ p) (hnr : isRoot c = false) :
    nameFor (some c) num e = claimStrategyName (some c) num e := by
  obtain ⟨i, pa⟩ := e
  simp at hp
  subst hp
  simp only [nameFor, claimStrategyName]
  rw [if_neg hne]
  by_cases hdl : c = List.dropLast p
  · rw [if_pos hdl]
    subst hdl
    have hpne : p ≠ [] := by
      intro h2
      subst h2
      exact hne rfl
    have hsplit := List.dropLast_append_getLast hpne
    have h1 : commonParts p.dropLast p = p.dropLast := by
      nth_rewrite 2 [← hsplit]
      exact commonParts_append _ _
    have h2 : relWalkUp p.dropLast p = [p.getLast hpne] := by
      unfold relWalkUp
      rw [h1]
      simp only [Nat.sub_self, List.replicate_zero, List.nil_append]
      nth_rewrite 2 [← hsplit]
      rw [List.drop_left]
    rw [hnr]
    simp only [Bool.false_eq_true, if_false]
    rw [h2, relStr]
    simp only [List.isEmpty_cons, Bool.false_eq_true, if_false]
    rw [intercalate_single, pathName, List.getLast?_eq_getLast p hpne]
    rfl
  · rw [if_neg hdl, hnr]

theorem nameFor_pathless (c : Option PathA) (num : Nat) (e : PEntry)
    (hp : e.path = none) : nameFor c num e = placeholder num := by
  obtain ⟨i, pa⟩ := e
  simp at hp
  subst hp
  cases c <;> rfl

/-- Claim C8 (amended): assign_unique_names always yields pairwise distinct
    names (the dict keys), and the per-entry derivation is: the synthetic
    placeholder for a path-less entry; just the file name when the common
    prefix equals the entry's whole path (not, as the claim said, its parent
    path, a case in which the relative-path rule already yields the file
    name); the absolute path when the common prefix is the filesystem root;
    otherwise the path relative to the common prefix walking up, which is
    where the code and the claimed strategy coincide. -/
theorem c8_assign_unique_names_amended (entries : List PEntry) :
    ((assignUniqueNames entries).map Prod.fst).Nodup ∧
    (∀ (num : Nat) (e : PEntry) (p : PathA), e.path = some p →
      nameFor (some p) num e = pathName p) ∧
    (∀ (c : PathA) (num : Nat) (e : PEntry) (p : PathA), e.path = some p → c ≠ p →
      isRoot c = false → nameFor (some c) num e = claimStrategyName (some c) num e) ∧
    (∀ (c : Option PathA) (num : Nat) (e : PEntry), e.path = none →
      nameFor c num e = placeholder num) :=
  ⟨assign_fst_nodup entries,
   fun num e p hp => nameFor_common_full num e p hp,
   fun c num e p hp hne hnr => nameFor_eq_claim c num e p hp hne hnr,
   fun c num e hp => nameFor_pathless c num e hp⟩

/-- Witness for c8_assign_unique_names_amended at concrete inputs: two
    sibling files get distinct names, the single-path case yields the file
    name, the proper-ancestor case matches the claimed strategy, and a
    path-less entry gets the placeholder. -/
theorem c8_assign_unique_names_amended_witness :
    ((assignUniqueNames [⟨0, some ["a", "f1"]⟩, ⟨1, some ["a", "f2"]⟩]).map
      Prod.fst).Nodup ∧
    nameFor (some ["a", "f1"]) 1 ⟨0, some ["a", "f1"]⟩ = pathName ["a", "f1"] ∧
    nameFor (some ["a"]) 1 ⟨0, some ["a", "f1"]⟩ =
      claimStrategyName (some ["a"]) 1 ⟨0, some ["a", "f1"]⟩ ∧
    nameFor (some ["a"]) 3 ⟨5, none⟩ = placeholder 3 :=
  ⟨(c8_assign_unique_names_amended [⟨0, some ["a", "f1"]⟩, ⟨1, some ["a", "f2"]⟩]).1,
   (c8_assign_unique_names_amended []).2.1 1 ⟨0, some ["a", "f1"]⟩ ["a", "f1"] rfl,
   (c8_assign_unique_names_amended []).2.2.1 ["a"] 1 ⟨0, some ["a", "f1"]⟩
     ["a", "f1"] rfl (by decide) rfl,
   (c8_assign_unique_names_amended []).2.2.2 (some ["a"]) 3 ⟨5, none⟩ rfl⟩

/-- Claim C9 (amended): adding the same Entry object twice via add_entries
    collapses to exactly one entry when the entry has a path (both
    occurrences derive the same name), but a path-less entry added twice
    yields two entries under distinct placeholder names. -/
theorem c9_add_same_entry_twice_amended (n : Nat) (p : PathA) :
    addEntry (addEntry [] ⟨n, some p⟩) ⟨n, some p⟩ = [(pathName p, ⟨n, some p⟩)] ∧
    (addEntry (addEntry [] ⟨n, none⟩) ⟨n, none⟩).length = 2 := by
  constructor
  · have h1 : addEntry [] (⟨n, some p⟩ : PEntry) = [(pathName p, ⟨n, some p⟩)] := by
      unfold addEntry assignUniqueNames
      simp [commonPathOf, enumFrom1, nameFor, odInsert]
    have h2 : addEntry [(pathName p, (⟨n, some p⟩ : PEntry))] ⟨n, some p⟩ =
        [(pathName p, ⟨n, some p⟩)] := by
      unfold addEntry assignUniqueNames
      simp [commonPathOf, commonParts_self, enumFrom1, nameFor, odInsert]
    rw [h1, h2]
  · have hne : placeholder 1 ≠ placeholder 2 := by decide
    have h1 : addEntry [] (⟨n, none⟩ : PEntry) = [(placeholder 1, ⟨n, none⟩)] := by
      unfold addEntry assignUniqueNames
      simp [commonPathOf, enumFrom1, nameFor, odInsert]
    have h2 : addEntry [(placeholder 1, (⟨n, none⟩ : PEntry))] ⟨n, none⟩ =
        [(placeholder 1, ⟨n, none⟩), (placeholder 2, ⟨n, none⟩)] := by
      unfold addEntry assignUniqueNames
      simp [commonPathOf, enumFrom1, nameFor, odInsert, hne]
    rw [h1, h2]
    rfl
